import Mathlib

set_option maxRecDepth 4000

/-!
Verification development for the PDF Toolkit application (pdf_toolkit.py).

The file shallowly embeds the parts of the program that the specification
talks about: the `parse_ranges` helper, the visual organizer's page list
(`OrganizePage.page_widgets` with its append / remove / reflow / drag-move
operations and the `save_pdf` background job), the `WorkerThread` error
boundary, and the range-validation control flow of `SplitPage.extract` and
the watermark actions.  GUI rendering, raster thumbnails and the actual PDF
byte manipulation done by pypdf / pymupdf are external collaborators and are
not modelled; page contents are represented by their
(source path, original index, rotation) description.
-/

namespace PdfToolkit

/-! ### Python string primitives used by `parse_ranges`

Tokenization is modelled on `List Char` so that everything reduces by
`rfl` / `decide`.  `str.strip()` is modelled on the ASCII whitespace
characters (Python also strips some rarer Unicode whitespace; no claim
depends on those), and `int()` is modelled as an optional sign followed by
decimal digits (Python additionally accepts Unicode digits and inner
underscores; again no claim depends on those fringes). -/

def isPySpace (c : Char) : Bool :=
  c = ' ' || c = '\t' || c = '\n' || c = '\r' || c = '\x0b' || c = '\x0c'

/-- Python `s.strip()`: drop whitespace from both ends. -/
def pyStrip (l : List Char) : List Char :=
  ((l.dropWhile isPySpace).reverse.dropWhile isPySpace).reverse

/-- Python `s.replace(" ", "")`: remove every space character (only U+0020). -/
def stripSpaces (l : List Char) : List Char :=
  l.filter (fun c => c ≠ ' ')

/-- Python `s.split(",")`, accumulator-style: splits at every comma. -/
def splitCommaAux (acc : List Char) : List Char → List (List Char)
  | [] => [acc.reverse]
  | c :: cs => if c = ',' then acc.reverse :: splitCommaAux [] cs else splitCommaAux (c :: acc) cs

/-- Decimal digits to a number; `none` on any non-digit. -/
def decDigits (acc : Nat) : List Char → Option Nat
  | [] => some acc
  | c :: cs => if c.isDigit then decDigits (acc * 10 + (c.toNat - '0'.toNat)) cs else none

/-- Python `int(s)` for a non-empty token: optional sign then decimal digits;
`none` models `ValueError`. -/
def pyInt : List Char → Option Int
  | [] => none
  | '-' :: rest =>
      if rest = [] then none else (decDigits 0 rest).map (fun n => -(n : Int))
  | '+' :: rest =>
      if rest = [] then none else (decDigits 0 rest).map (fun n => (n : Int))
  | l => (decDigits 0 l).map (fun n => (n : Int))

/-! ### `parse_ranges` (pdf_toolkit.py lines 91-123) -/

/-- Python `max(1, min(total_pages, v))` — the endpoint clamp applied to both ends. -/
def clamp1 (total : Nat) (v : Int) : Int :=
  max 1 (min (total : Int) v)

/-- Tail of each token branch in `parse_ranges`: clamp both endpoints, reject
`start > end`, otherwise emit the pair. -/
def finishToken (total : Nat) (part : List Char) (s e : Int) : Except String (Int × Int) :=
  if clamp1 total s > clamp1 total e then
    .error ("Start page cannot be after end page in range: " ++ String.mk part)
  else .ok (clamp1 total s, clamp1 total e)

/-- Python `part.split("-", 1)[0]`: the characters before the first `-`. -/
def splitLeft (part : List Char) : List Char :=
  part.takeWhile (fun c => c ≠ '-')

/-- Python `part.split("-", 1)[1]`: the characters after the first `-`. -/
def splitRight (part : List Char) : List Char :=
  (part.dropWhile (fun c => c ≠ '-')).drop 1

/-- The `"A-B"` branch of the `parse_ranges` token loop, on the two sides of
the first `-`: a bare `-` is rejected, an empty `A` defaults to 1, an empty
`B` defaults to `total_pages`, a non-numeric side raises, then the endpoints
go through `finishToken`. -/
def parseDashToken (total : Nat) (part left right : List Char) : Except String (Int × Int) :=
  if left = [] && right = [] then .error ("Range - is not valid: " ++ String.mk part)
  else
    match (if left = [] then some 1 else pyInt left),
          (if right = [] then some (total : Int) else pyInt right) with
    | some s, some e => finishToken total part s e
    | _, _ => .error ("Invalid characters in range: " ++ String.mk part)

/-- One token of `parse_ranges`: either `"A-B"` (split at the first `-`) or a
plain number `"N"` meaning `(N, N)`. -/
def parseToken (total : Nat) (part : List Char) : Except String (Int × Int) :=
  if part.contains '-' then
    parseDashToken total part (splitLeft part) (splitRight part)
  else
    match pyInt part with
    | some v => finishToken total part v v
    | none => .error ("Invalid characters in page number: " ++ String.mk part)

/-- The `for part in parts` loop of `parse_ranges`: results in token order,
first raised error aborts the whole parse. -/
def parseParts (total : Nat) : List (List Char) → Except String (List (Int × Int))
  | [] => .ok []
  | p :: ps =>
      match parseToken total p with
      | .error e => .error e
      | .ok r =>
          match parseParts total ps with
          | .error e => .error e
          | .ok rs => .ok (r :: rs)

/-- The token list of `parse_ranges`: strip the input, remove spaces, split on
commas, strip each part and drop empty parts. -/
def range_tokens (ranges_text : String) : List (List Char) :=
  if pyStrip ranges_text.toList = [] then []
  else
    ((splitCommaAux [] (stripSpaces (pyStrip ranges_text.toList))).map pyStrip).filter
      (fun p => p ≠ [])

/-- The function `parse_ranges(ranges_text, total_pages)` (pdf_toolkit.py lines 91-123).
`Except.error` models the raised `ValueError` (`InvalidRangeError` in the
spec's taxonomy). -/
def parse_ranges (ranges_text : String) (total_pages : Nat) : Except String (List (Int × Int)) :=
  if pyStrip ranges_text.toList = [] then .ok []
  else parseParts total_pages (range_tokens ranges_text)

deriving instance DecidableEq for Except

/-- Returns `true` exactly on the error outcome. -/
def isErr {ε α : Type} : Except ε α → Bool
  | .error _ => true
  | .ok _ => false

/-- The failure conditions of the claim's wording, for an `"A-B"` token with
sides `left` and `right`: bare `-` with nothing on either side, or
non-numeric characters where a page number is expected, or start > end after
clamping both resolved endpoints. -/
def specDashInvalid (total : Nat) (left right : List Char) : Bool :=
  (left.isEmpty && right.isEmpty)
  || (!left.isEmpty && (pyInt left).isNone)
  || (!right.isEmpty && (pyInt right).isNone)
  || (match (if left = [] then some 1 else pyInt left),
            (if right = [] then some (total : Int) else pyInt right) with
      | some s, some e => decide (clamp1 total s > clamp1 total e)
      | _, _ => false)

/-- Modelled from the spec's wording of the failure conditions (claim C4):
a token is invalid when it is a bare `-` with nothing on either side, or
non-numeric characters appear where a page number is expected, or within the
token start > end after clamping both endpoints (for a plain `"N"` token
start = end, so only non-numericity can fail).  This definition follows the
claim's words and is compared against the source-derived `parse_ranges`. -/
def specTokenInvalid (total : Nat) (part : List Char) : Bool :=
  if part.contains '-' then
    specDashInvalid total (splitLeft part) (splitRight part)
  else
    (pyInt part).isNone
    || (match pyInt part with
        | some v => decide (clamp1 total v > clamp1 total v)
        | none => false)

/-! ### The organizer page collection (`OrganizePage` / `PageCard`)

A `PageCard` widget is described by the data `save_pdf` and the reorder
logic read from it: the source file path, the zero-based original page index
and the accumulated rotation in degrees (`PageCard.__init__` stores
`orig_index`, `source_path`, `rotation = 0`; the raster thumbnail is
display-only and omitted).  Python object identity is modelled by value
equality; the concrete scenarios below use pairwise distinct card values. -/

structure PageCard where
  source_path : String
  orig_index : Nat
  rotation : Nat
deriving DecidableEq

/-- The method `PageCard.rotate_cw` (lines 623-625): `self.rotation += 90` — the stored
value accumulates and is not reduced here. -/
def rotate_cw (c : PageCard) : PageCard :=
  { c with rotation := c.rotation + 90 }

/-- The page descriptions produced by `OrganizePage._render_worker` for a
`total`-page source: indices `0 .. total-1`, rotation 0 (lines 392-424;
thumbnail rendering omitted). -/
def render_worker_pages (path : String) (total : Nat) : List PageCard :=
  (List.range total).map (fun i => { source_path := path, orig_index := i, rotation := 0 })

/-- Python `list.insert(i, a)` for `0 ≤ i`: insert before position `i`,
clamping past-the-end indices to an append. -/
def pyInsert {α : Type} (l : List α) (i : Nat) (a : α) : List α :=
  l.take i ++ a :: l.drop i

/-- The insertion loop of `_append_to_grid` when `insert_idx` is given:
`for i, card in enumerate(new_cards): page_widgets.insert(insert_idx + i, card)`. -/
def insertCardsAt (widgets : List PageCard) (idx : Nat) : List PageCard → List PageCard
  | [] => widgets
  | c :: cs => insertCardsAt (pyInsert widgets idx c) (idx + 1) cs

/-- The method `OrganizePage._append_to_grid` (lines 426-445): with an `insert_idx`
insert the new cards there in order, otherwise extend at the end. -/
def append_to_grid (widgets : List PageCard) (newCards : List PageCard) :
    Option Nat → List PageCard
  | some idx => insertCardsAt widgets idx newCards
  | none => widgets ++ newCards

/-- The method `OrganizePage.remove_page_card` (lines 447-453): remove the first
occurrence of the card if present, no-op otherwise. -/
def remove_page_card (widgets : List PageCard) (card : PageCard) : List PageCard :=
  widgets.erase card

/-! ### Grid layout (`_reflow_grid`, lines 455-466) -/

/-- The fixed column count `OrganizePage.grid_cols` (line 340). -/
def grid_cols : Nat := 5

/-- The placement loop of `_reflow_grid`: walk the cards assigning `(row, col)`,
bumping `col` and wrapping to the next row when `col` reaches `grid_cols`. -/
def reflowGo : List PageCard → Nat → Nat → List (PageCard × Nat × Nat)
  | [], _, _ => []
  | c :: cs, row, col =>
      if col + 1 ≥ grid_cols then (c, row, col) :: reflowGo cs (row + 1) 0
      else (c, row, col) :: reflowGo cs row (col + 1)

/-- The method `OrganizePage._reflow_grid`: grid placements of the working list, in list
order, starting at `(0, 0)`. -/
def reflow_grid (cards : List PageCard) : List (PageCard × Nat × Nat) :=
  reflowGo cards 0 0

/-! ### Drag and drop (`on_drag_motion`, lines 474-501) -/

/-- Cell width used by `on_drag_motion`: first card's width plus padding,
with the hardcoded fallback when the geometry is not yet realized
(`if w_width < 50: w_width = 170`). -/
def cellW (w0 : Int) : Int :=
  let w := w0 + 10
  if w < 50 then 170 else w

/-- Cell height used by `on_drag_motion`
(`if w_height < 50: w_height = 250`). -/
def cellH (h0 : Int) : Int :=
  let h := h0 + 10
  if h < 50 then 250 else h

/-- The target-index computation of `on_drag_motion` (lines 483-494) for a
pointer at `(x, y)` over `n` cards whose first card reports raw geometry
`(w0, h0)`.  Python `//` is floor division, hence `Int.fdiv`. -/
def onDragMotionIdx (x y w0 h0 : Int) (n : Nat) : Int :=
  let wW := cellW w0
  let wH := cellH h0
  let targetCol := max 0 (min ((grid_cols : Int) - 1) (Int.fdiv x wW))
  let targetRow := max 0 (Int.fdiv y wH)
  let t := targetRow * (grid_cols : Int) + targetCol
  if t ≥ (n : Int) then (n : Int) - 1 else t

/-- The reorder step of `on_drag_motion` (lines 496-501): if the target index
differs from the dragged card's current index, pop it and reinsert it at the
target index; otherwise leave the list untouched.  The `none` fallback is
unreachable in the program (`current_idx` always comes from `list.index`). -/
def moveTo (widgets : List PageCard) (currentIdx targetIdx : Nat) : List PageCard :=
  if targetIdx = currentIdx then widgets
  else
    match widgets.get? currentIdx with
    | some dragItem => pyInsert (widgets.eraseIdx currentIdx) targetIdx dragItem
    | none => widgets

/-- The method `OrganizePage.on_drag_motion` (lines 474-501): short-circuit on an empty
collection before reading any card's geometry, otherwise compute the target
index from the pointer position and move the dragged card there. -/
def on_drag_motion (widgets : List PageCard) (dragItem : PageCard)
    (x y w0 h0 : Int) : List PageCard :=
  if widgets.isEmpty then widgets
  else
    let tIdx := (onDragMotionIdx x y w0 h0 widgets.length).toNat
    let cIdx := widgets.indexOf dragItem
    moveTo widgets cIdx tIdx

/-! ### Progress channel events and the save job (`save_pdf`, lines 507-550) -/

/-- A `ProgressEvent` put on `app.progress_queue`: `("progress", pct)`,
`("status", msg)`, `("done", msg)` or `("error", msg)`. -/
inductive PEvent where
  | progress (pct : Nat)
  | status (msg : String)
  | done (msg : String)
  | error (msg : String)
deriving DecidableEq

/-- Recognizer for `error` events. -/
def isErrEvent : PEvent → Bool
  | .error _ => true
  | _ => false

/-- Recognizer for `done` events. -/
def isDoneEvent : PEvent → Bool
  | .done _ => true
  | _ => false

/-- A page written by `save_pdf`'s job: source path, original index and the
rotation applied to the output (the stored rotation reduced mod 360; a zero
reduced rotation means no `page.rotate` call, i.e. rotation 0). -/
abbrev PageOut : Type := String × Nat × Nat

/-- One iteration's writer effect in the `save_pdf` job (lines 522-536):
the page is copied only when `card.orig_index < len(reader.pages)` for the
source re-read at save time (`counts` gives each source's current page
count); otherwise the card is silently skipped. -/
def saveStep (counts : String → Nat) (card : PageCard) : Option PageOut :=
  if card.orig_index < counts card.source_path then
    some (card.source_path, card.orig_index, card.rotation % 360)
  else none

/-- The `for i, card in enumerate(page_widgets)` loop of the `save_pdf` job:
written pages in list order plus the per-iteration progress/status events.
The percentage is modelled as the exact rational floor; no claim depends on
its value. -/
def saveLoop (counts : String → Nat) (total : Nat) (i : Nat) :
    List PageCard → List PageOut × List PEvent
  | [] => ([], [])
  | card :: rest =>
      let tail := saveLoop counts total (i + 1) rest
      let pgs := match saveStep counts card with
        | some p => p :: tail.1
        | none => tail.1
      (pgs, PEvent.progress ((i + 1) * 100 / total) :: PEvent.status "Saving page" :: tail.2)

/-- Final message of a successful organizer save. -/
def saveDoneMsg : String := "Saved organized PDF"

/-- The whole `job()` body of `save_pdf` (lines 514-548): run the page loop,
then either write the file and put `status` + `done` (when the destination is
writable), or hit the write failure, whose exception is caught by the job's
own `except` clause and surfaced as a single `error` event (no file is
produced). -/
def save_pdf_job (cards : List PageCard) (counts : String → Nat) (writeOk : Bool) :
    List PageOut × List PEvent :=
  let r := saveLoop counts cards.length 0 cards
  if writeOk then
    (r.1, r.2 ++ [PEvent.status saveDoneMsg, PEvent.done saveDoneMsg])
  else
    ([], r.2 ++ [PEvent.error "write failed"])

/-! ### `WorkerThread.run` (lines 126-142) -/

/-- The observable behaviour of a job body handed to `WorkerThread`: the
events it put on the progress queue, plus the message of an exception it let
escape (`none` when it returned normally). -/
structure JobTrace where
  events : List PEvent
  uncaught : Option String

/-- The method `WorkerThread.run`: run the target; an uncaught exception is converted
into a single `("error", str(e))` event instead of propagating. -/
def workerRun (t : JobTrace) : List PEvent :=
  match t.uncaught with
  | none => t.events
  | some msg => t.events ++ [PEvent.error msg]

/-- The `save_pdf` job as seen by `WorkerThread`: its body catches its own
exceptions (lines 515, 547-548), so nothing escapes to the thread boundary. -/
def save_pdf_trace (cards : List PageCard) (counts : String → Nat) (writeOk : Bool) :
    JobTrace :=
  { events := (save_pdf_job cards counts writeOk).2, uncaught := none }

/-! ### Range validation control flow (`SplitPage.extract`, lines 826-898,
and the watermark actions, lines 1069-1182) -/

/-- Python `range(start - 1, end)` for one parsed pair, as zero-based page indices. -/
def pages_of_ranges : List (Int × Int) → List Nat
  | [] => []
  | (s, e) :: rest =>
      List.range' (s.toNat - 1) (e.toNat - (s.toNat - 1)) ++ pages_of_ranges rest

/-- The destination-building loop of `extract` (lines 849-866): each
comma-separated token is parsed with `parse_ranges` (a raised error aborts the
whole action), its selected zero-based pages are collected, and tokens that
select no pages produce no output file. -/
def extract_dests (total : Nat) : List (List Char) → Except String (List (List Char × List Nat))
  | [] => .ok []
  | tok :: rest =>
      match parse_ranges (String.mk tok) total with
      | .error e => .error e
      | .ok rs =>
          match extract_dests total rest with
          | .error e => .error e
          | .ok tail =>
              if pages_of_ranges rs = [] then .ok tail
              else .ok ((tok, pages_of_ranges rs) :: tail)

/-- The tokens `extract` iterates over:
`[t.strip() for t in range_text.split(',') if t.strip()]` on the stripped
entry text (line 840). -/
def extract_tokens (range_text : String) : List (List Char) :=
  ((splitCommaAux [] (pyStrip range_text.toList)).map pyStrip).filter (fun t => t ≠ [])

/-- Outcome of `SplitPage.extract` once a source and output folder are chosen:
a warning for empty range text, a synchronous `Invalid Range` dialog (no
worker), a warning when no pages matched, or a spawned background worker with
the files to write. -/
inductive ExtractOutcome where
  | warn_no_range
  | sync_invalid_range (msg : String)
  | warn_no_match
  | worker (dests : List (List Char × List Nat))
deriving DecidableEq

/-- The method `SplitPage.extract` (lines 826-898), from the point where the source PDF
and the output folder have been chosen: the range text is parsed
synchronously, before any worker starts; only a fully valid, non-trivial
selection spawns the background job. -/
def split_extract (range_text : String) (total_pages : Nat) : ExtractOutcome :=
  if pyStrip range_text.toList = [] then .warn_no_range
  else
    match extract_dests total_pages (extract_tokens range_text) with
    | .error msg => .sync_invalid_range msg
    | .ok dests => if dests = [] then .warn_no_match else .worker dests

/-- Returns `true` exactly when the outcome spawned a background worker. -/
def spawns_worker : ExtractOutcome → Bool
  | .worker _ => true
  | _ => false

/-- Observable behaviour of a watermark action: whether `run_worker` was
called, the events the job put on the channel, and how many pages were
written to the output. -/
structure WatermarkRun where
  worker_spawned : Bool
  events : List PEvent
  pages_written : Nat

/-- Per-page progress/status events of the watermark job's page loop. -/
def wmLoop (total : Nat) : Nat → List PEvent
  | 0 => []
  | k + 1 =>
      PEvent.progress ((total - k) * 100 / total) :: PEvent.status "Processing page"
        :: wmLoop total k

/-- Final message of a successful watermark run. -/
def wmDoneMsg : String := "Watermark applied successfully"

/-- The method `WatermarkPage.apply_to_single` (lines 1069-1125), from the point where a
source file and an output path have been chosen: `run_worker(job)` is called
unconditionally, and `parse_ranges` runs inside the job body (lines
1088-1093); on an invalid range the job puts a single `error` event and
returns before touching any page.  On success every page is written
(watermarked or not). -/
def apply_to_single (range_text : String) (total_pages : Nat) : WatermarkRun :=
  let parsed :=
    if pyStrip range_text.toList ≠ [] then parse_ranges range_text total_pages
    else .ok [(1, (total_pages : Int))]
  match parsed with
  | .error msg =>
      { worker_spawned := true, events := [PEvent.error msg], pages_written := 0 }
  | .ok _ =>
      { worker_spawned := true
        events := wmLoop total_pages total_pages
                    ++ [PEvent.status wmDoneMsg, PEvent.done wmDoneMsg]
        pages_written := total_pages }

/-- The method `WatermarkPage.apply_to_folder` (lines 1127-1182) with `files` PDFs of
`total_pages` pages each: with no PDFs in the folder an info dialog is shown
and no worker starts; otherwise the worker is spawned unconditionally and
`parse_ranges` runs inside the job for the first file (lines 1148-1153) — an
invalid range puts a single `error` event and returns from the whole job. -/
def apply_to_folder (range_text : String) (total_pages : Nat) (files : Nat) :
    WatermarkRun :=
  if files = 0 then { worker_spawned := false, events := [], pages_written := 0 }
  else
    let parsed :=
      if pyStrip range_text.toList ≠ [] then parse_ranges range_text total_pages
      else .ok [(1, (total_pages : Int))]
    match parsed with
    | .error msg =>
        { worker_spawned := true, events := [PEvent.error msg], pages_written := 0 }
    | .ok _ =>
        { worker_spawned := true
          events := [PEvent.status "Processed", PEvent.done "Batch watermark complete"]
          pages_written := files * total_pages }

/-! ### Concrete organizer scenario for the end-to-end claim -/

/-- The 3-page first source of the end-to-end scenario. -/
def src1 : String := "first.pdf"

/-- The 2-page second source of the end-to-end scenario. -/
def src2 : String := "second.pdf"

/-- Page counts of the two sources as re-read at save time. -/
def c1_counts : String → Nat :=
  fun p => if p = src1 then 3 else if p = src2 then 2 else 0

/-- The working list after: load a 3-page source (clear + append), append a
2-page second source, then remove the first card (which is
`⟨src1, 0, 0⟩`, the head of the list). -/
def c1_final : List PageCard :=
  remove_page_card
    (append_to_grid (append_to_grid [] (render_worker_pages src1 3) none)
      (render_worker_pages src2 2) none)
    { source_path := src1, orig_index := 0, rotation := 0 }

/-- A concrete unrotated card of the first source's first page. -/
def card0 : PageCard :=
  { source_path := src1, orig_index := 0, rotation := 0 }

/-- A working list holding one stale reference (original index 5 of the
3-page `src1`) and one valid one. -/
def stale_example : List PageCard :=
  [{ source_path := src1, orig_index := 5, rotation := 0 },
   { source_path := src1, orig_index := 1, rotation := 0 }]

/-- A concrete job trace that emitted one progress event and then raised. -/
def boom_trace : JobTrace :=
  { events := [PEvent.progress 50], uncaught := some "boom" }

/-! ### Lemmas about `parse_ranges` -/

theorem finishToken_isErr (total : Nat) (part : List Char) (s e : Int) :
    isErr (finishToken total part s e) = decide (clamp1 total s > clamp1 total e) := by
  unfold finishToken
  split <;> simp_all [isErr]

theorem parseDashToken_isErr (total : Nat) (part left right : List Char) :
    isErr (parseDashToken total part left right) = specDashInvalid total left right := by
  unfold parseDashToken specDashInvalid
  by_cases h1 : left = []
  · have he1 : left.isEmpty = true := by simp [List.isEmpty_iff, h1]
    by_cases h2 : right = []
    · simp [h1, h2, isErr]
    · have he2 : right.isEmpty = false := by simp [List.isEmpty_iff, h2]
      cases hpr : pyInt right with
      | none => simp [h1, h2, he1, he2, hpr, isErr]
      | some e =>
          simp only [h1, h2, he1, he2, hpr, if_true, if_false, ite_true, ite_false,
            decide_True, decide_False, Bool.true_and, Bool.false_and, Bool.and_false,
            Bool.true_or, Bool.false_or, Bool.or_false, Bool.not_true, Bool.not_false,
            Option.isNone_some]
          exact finishToken_isErr total part 1 e
  · have he1 : left.isEmpty = false := by simp [List.isEmpty_iff, h1]
    by_cases h2 : right = []
    · have he2 : right.isEmpty = true := by simp [List.isEmpty_iff, h2]
      cases hpl : pyInt left with
      | none => simp [h1, h2, he1, he2, hpl, isErr]
      | some s =>
          simp only [h1, h2, he1, he2, hpl, if_true, if_false, ite_true, ite_false,
            decide_True, decide_False, Bool.true_and, Bool.false_and, Bool.and_false,
            Bool.true_or, Bool.false_or, Bool.or_false, Bool.not_true, Bool.not_false,
            Option.isNone_some]
          exact finishToken_isErr total part s (total : Int)
    · have he2 : right.isEmpty = false := by simp [List.isEmpty_iff, h2]
      cases hpl : pyInt left with
      | none => simp [h1, h2, he1, he2, hpl, isErr]
      | some s =>
          cases hpr : pyInt right with
          | none => simp [h1, h2, he1, he2, hpl, hpr, isErr]
          | some e =>
              simp only [h1, h2, he1, he2, hpl, hpr, if_true, if_false, ite_true,
                ite_false, decide_True, decide_False, Bool.true_and, Bool.false_and,
                Bool.and_false, Bool.false_and, Bool.true_or, Bool.false_or,
                Bool.or_false, Bool.not_true, Bool.not_false, Option.isNone_some]
              exact finishToken_isErr total part s e

theorem parseToken_isErr (total : Nat) (part : List Char) :
    isErr (parseToken total part) = specTokenInvalid total part := by
  unfold parseToken specTokenInvalid
  by_cases hc : part.contains '-'
  · simp only [hc, if_true]
    exact parseDashToken_isErr total part (splitLeft part) (splitRight part)
  · have hcm : ¬('-' ∈ part) := by simpa using hc
    cases hp : pyInt part with
    | none => simp [hc, hcm, hp, isErr]
    | some v =>
        simp [hc, hcm, hp]
        rw [finishToken_isErr]
        simp [lt_irrefl]

theorem parseParts_isErr (total : Nat) :
    ∀ ps : List (List Char), isErr (parseParts total ps) = ps.any (specTokenInvalid total)
  | [] => rfl
  | p :: ps => by
      have ht := parseToken_isErr total p
      have hrec := parseParts_isErr total ps
      unfold parseParts
      cases h : parseToken total p with
      | error e =>
          rw [h] at ht
          simp only [List.any_cons, ← ht, isErr, Bool.true_or]
      | ok r =>
          rw [h] at ht
          cases h2 : parseParts total ps with
          | error e2 =>
              rw [h2] at hrec
              simp only [List.any_cons, ← ht, ← hrec, isErr, Bool.false_or]
          | ok rs =>
              rw [h2] at hrec
              simp only [List.any_cons, ← ht, ← hrec, isErr, Bool.false_or]

theorem clamp1_ge_one (total : Nat) (v : Int) : 1 ≤ clamp1 total v :=
  le_max_left _ _

theorem clamp1_le_total (total : Nat) (h : 1 ≤ total) (v : Int) :
    clamp1 total v ≤ (total : Int) :=
  max_le (by exact_mod_cast h) (min_le_left _ _)

theorem finishToken_ok_bounds (total : Nat) (h : 1 ≤ total) (part : List Char)
    (s e p q : Int) (hok : finishToken total part s e = .ok (p, q)) :
    1 ≤ p ∧ p ≤ q ∧ q ≤ (total : Int) := by
  unfold finishToken at hok
  split at hok
  · exact absurd hok (by simp)
  · next hle =>
      simp only [Except.ok.injEq, Prod.mk.injEq] at hok
      obtain ⟨hp, hq⟩ := hok
      subst hp; subst hq
      exact ⟨clamp1_ge_one total s, le_of_not_lt hle, clamp1_le_total total h e⟩

theorem parseDashToken_ok_bounds (total : Nat) (h : 1 ≤ total) (part left right : List Char)
    (p q : Int) (hok : parseDashToken total part left right = .ok (p, q)) :
    1 ≤ p ∧ p ≤ q ∧ q ≤ (total : Int) := by
  unfold parseDashToken at hok
  split at hok
  · exact absurd hok (by simp)
  · split at hok
    · exact finishToken_ok_bounds total h part _ _ p q hok
    · exact absurd hok (by simp)

theorem parseToken_ok_bounds (total : Nat) (h : 1 ≤ total) (part : List Char)
    (p q : Int) (hok : parseToken total part = .ok (p, q)) :
    1 ≤ p ∧ p ≤ q ∧ q ≤ (total : Int) := by
  unfold parseToken at hok
  split at hok
  · exact parseDashToken_ok_bounds total h part _ _ p q hok
  · split at hok
    · exact finishToken_ok_bounds total h part _ _ p q hok
    · exact absurd hok (by simp)

theorem parseParts_ok_bounds (total : Nat) (h : 1 ≤ total) :
    ∀ (ps : List (List Char)) (rs : List (Int × Int)),
      parseParts total ps = .ok rs →
      ∀ r ∈ rs, 1 ≤ r.1 ∧ r.1 ≤ r.2 ∧ r.2 ≤ (total : Int)
  | [], rs, hok => by
      simp only [parseParts] at hok
      injection hok with h2
      subst h2
      intro r hr
      exact absurd hr (List.not_mem_nil r)
  | p :: ps, rs, hok => by
      unfold parseParts at hok
      cases h1 : parseToken total p with
      | error e => rw [h1] at hok; exact absurd hok (by simp)
      | ok r0 =>
          rw [h1] at hok
          cases h2 : parseParts total ps with
          | error e => rw [h2] at hok; exact absurd hok (by simp)
          | ok rs0 =>
              rw [h2] at hok
              injection hok with h3
              subst h3
              intro r hr
              rcases List.mem_cons.mp hr with h4 | h4
              · subst h4
                obtain ⟨a, b⟩ := r
                exact parseToken_ok_bounds total h p a b h1
              · exact parseParts_ok_bounds total h ps rs0 h2 r h4

/-! ### Lemmas about `pyInsert`, `eraseIdx` and `moveTo` -/

theorem pyInsert_get?_self {α : Type} :
    ∀ (l : List α) (i : Nat) (a : α), i ≤ l.length → (pyInsert l i a).get? i = some a
  | l, 0, a, _ => by simp [pyInsert]
  | [], i + 1, a, h => by simp at h
  | b :: t, i + 1, a, h => by
      have := pyInsert_get?_self t i a (by simp at h; omega)
      simpa [pyInsert, List.take_succ_cons, List.drop_succ_cons] using this

theorem pyInsert_eraseIdx {α : Type} :
    ∀ (l : List α) (i : Nat) (a : α), i ≤ l.length → (pyInsert l i a).eraseIdx i = l
  | l, 0, a, _ => by simp [pyInsert]
  | [], i + 1, a, h => by simp at h
  | b :: t, i + 1, a, h => by
      have := pyInsert_eraseIdx t i a (by simp at h; omega)
      simpa [pyInsert, List.take_succ_cons, List.drop_succ_cons] using this

theorem pyInsert_length {α : Type} (l : List α) (i : Nat) (a : α) (h : i ≤ l.length) :
    (pyInsert l i a).length = l.length + 1 := by
  simp [pyInsert]
  omega

theorem eraseIdx_length {α : Type} :
    ∀ (l : List α) (i : Nat), i < l.length → (l.eraseIdx i).length = l.length - 1
  | [], i, h => by simp at h
  | b :: t, 0, _ => by simp
  | b :: t, i + 1, h => by
      have ht : i < t.length := by simp at h; omega
      have := eraseIdx_length t i ht
      simp only [List.eraseIdx, List.length_cons, this]
      omega

/-- Applying `moveTo` at the current index is the identity — the code takes the
`target_idx != current_idx` guard and leaves the list untouched. -/
theorem moveTo_self (l : List PageCard) (i : Nat) : moveTo l i i = l := by
  simp [moveTo]

theorem moveTo_length (l : List PageCard) (c t : Nat) (hc : c < l.length)
    (ht : t < l.length) : (moveTo l c t).length = l.length := by
  unfold moveTo
  by_cases h : t = c
  · simp [h]
  · cases hg : l.get? c with
    | none => simp [h, hg]
    | some item =>
        simp only [h, if_false, hg]
        rw [pyInsert_length _ _ _ (by rw [eraseIdx_length l c hc]; omega),
          eraseIdx_length l c hc]
        omega

theorem moveTo_get?_target (l : List PageCard) (c t : Nat) (hc : c < l.length)
    (ht : t < l.length) : (moveTo l c t).get? t = l.get? c := by
  unfold moveTo
  by_cases h : t = c
  · simp [h]
  · cases hg : l.get? c with
    | none => rw [List.get?_eq_none] at hg; omega
    | some item =>
        simp only [h, if_false, hg]
        rw [pyInsert_get?_self _ _ _ (by rw [eraseIdx_length l c hc]; omega)]

theorem moveTo_eraseIdx (l : List PageCard) (c t : Nat) (hc : c < l.length)
    (ht : t < l.length) : (moveTo l c t).eraseIdx t = l.eraseIdx c := by
  unfold moveTo
  by_cases h : t = c
  · simp [h]
  · cases hg : l.get? c with
    | none => rw [List.get?_eq_none] at hg; omega
    | some item =>
        simp only [h, if_false, hg]
        exact pyInsert_eraseIdx _ _ _ (by rw [eraseIdx_length l c hc]; omega)

/-! ### Lemmas about `reflow_grid` -/

theorem reflowGo_get? :
    ∀ (cs : List PageCard) (row col j : Nat), col < grid_cols →
      (reflowGo cs row col).get? j =
        (cs.get? j).map (fun c => (c, row + (col + j) / grid_cols, (col + j) % grid_cols))
  | [], row, col, j, _ => by simp [reflowGo]
  | c :: cs, row, col, 0, hcol => by
      unfold reflowGo
      split <;>
        simp [Nat.div_eq_of_lt hcol, Nat.mod_eq_of_lt hcol]
  | c :: cs, row, col, j + 1, hcol => by
      unfold reflowGo
      split
      · next hge =>
          have h01 : (0 : Nat) < grid_cols := by simp [grid_cols]
          have hrec := reflowGo_get? cs (row + 1) 0 j h01
          simp only [List.get?_cons_succ]
          rw [hrec]
          have h5 : col + (j + 1) = j + grid_cols := by
            simp only [grid_cols] at hcol hge ⊢
            omega
          rw [h5, Nat.add_div_right j h01, Nat.add_mod_right j grid_cols]
          simp only [Nat.zero_add]
          have h6 : row + 1 + j / grid_cols = row + (j / grid_cols + 1) := by omega
          rw [h6]
      · next hlt =>
          have hcol1 : col + 1 < grid_cols := by omega
          have hrec := reflowGo_get? cs row (col + 1) j hcol1
          simp only [List.get?_cons_succ]
          rw [hrec]
          have h5 : col + 1 + j = col + (j + 1) := by omega
          rw [h5]

theorem reflow_grid_get? (cards : List PageCard) (i : Nat) :
    (reflow_grid cards).get? i =
      (cards.get? i).map (fun c => (c, i / grid_cols, i % grid_cols)) := by
  unfold reflow_grid
  rw [reflowGo_get? cards 0 0 i (by simp [grid_cols])]
  simp

/-! ### Lemmas about the save job -/

theorem saveLoop_pages (counts : String → Nat) (total : Nat) :
    ∀ (i : Nat) (cards : List PageCard),
      (saveLoop counts total i cards).1 = cards.filterMap (saveStep counts)
  | i, [] => by simp [saveLoop]
  | i, card :: rest => by
      have := saveLoop_pages counts total (i + 1) rest
      unfold saveLoop
      cases h : saveStep counts card <;>
        simp [h, List.filterMap_cons, this]

theorem saveLoop_events_clean (counts : String → Nat) (total : Nat) :
    ∀ (i : Nat) (cards : List PageCard),
      (saveLoop counts total i cards).2.countP isErrEvent = 0 ∧
      (saveLoop counts total i cards).2.countP isDoneEvent = 0
  | i, [] => by simp [saveLoop]
  | i, card :: rest => by
      have := saveLoop_events_clean counts total (i + 1) rest
      unfold saveLoop
      cases h : saveStep counts card <;>
        simp [h, List.countP_cons, isErrEvent, isDoneEvent, this.1, this.2]

theorem filterMap_saveStep_all_valid (counts : String → Nat) :
    ∀ (cards : List PageCard),
      (∀ c ∈ cards, c.orig_index < counts c.source_path) →
      cards.filterMap (saveStep counts) =
        cards.map (fun c => (c.source_path, c.orig_index, c.rotation % 360))
  | [], _ => rfl
  | card :: rest, h => by
      have hh := h card (List.mem_cons_self card rest)
      have ht := filterMap_saveStep_all_valid counts rest
        (fun c hc => h c (List.mem_cons_of_mem card hc))
      simp [List.filterMap_cons, saveStep, hh, ht]

theorem filterMap_saveStep_eq_filter_map (counts : String → Nat) :
    ∀ cards : List PageCard,
      cards.filterMap (saveStep counts) =
        (cards.filter (fun c => c.orig_index < counts c.source_path)).map
          (fun c => (c.source_path, c.orig_index, c.rotation % 360))
  | [] => rfl
  | card :: rest => by
      have := filterMap_saveStep_eq_filter_map counts rest
      by_cases h : card.orig_index < counts card.source_path <;>
        simp [List.filterMap_cons, List.filter_cons, saveStep, h, this]

/-! ### Lemmas about the drag target index -/

theorem onDragMotionIdx_bounds (x y w0 h0 : Int) (n : Nat) (hn : 1 ≤ n) :
    0 ≤ onDragMotionIdx x y w0 h0 n ∧ onDragMotionIdx x y w0 h0 n < (n : Int) := by
  unfold onDragMotionIdx
  dsimp only
  have hcol0 : 0 ≤ max 0 (min ((grid_cols : Int) - 1) (Int.fdiv x (cellW w0))) :=
    le_max_left _ _
  have hrow0 : 0 ≤ max 0 (Int.fdiv y (cellH h0)) := le_max_left _ _
  have ht0 : 0 ≤ max 0 (Int.fdiv y (cellH h0)) * (grid_cols : Int)
      + max 0 (min ((grid_cols : Int) - 1) (Int.fdiv x (cellW w0))) := by
    have : (0 : Int) ≤ max 0 (Int.fdiv y (cellH h0)) * (grid_cols : Int) :=
      mul_nonneg hrow0 (by simp [grid_cols])
    omega
  have hn1 : (1 : Int) ≤ (n : Int) := by exact_mod_cast hn
  split
  · constructor <;> omega
  · next hlt => constructor <;> omega

/-! ### Lemmas about `extract_dests` -/

theorem extract_dests_isErr (total : Nat) :
    ∀ toks : List (List Char),
      isErr (extract_dests total toks) =
        toks.any (fun tok => isErr (parse_ranges (String.mk tok) total))
  | [] => rfl
  | tok :: rest => by
      have hrec := extract_dests_isErr total rest
      rw [List.any_cons, ← hrec]
      cases h : parse_ranges (String.mk tok) total with
      | error e =>
          simp only [extract_dests, h]
          simp [isErr]
      | ok rs =>
          cases h2 : extract_dests total rest with
          | error e2 =>
              simp only [extract_dests, h, h2]
              simp [isErr]
          | ok tail =>
              simp only [extract_dests, h, h2]
              by_cases hp : pages_of_ranges rs = [] <;> simp [hp, isErr]

/-! ### Claim theorems -/

/-- Claim C1: starting from an empty collection, loading a 3-page source,
appending a 2-page second source, removing the first page and saving produces
the pages `[src1_pg2, src1_pg3, src2_pg1, src2_pg2]` in exactly that order;
more generally, `save_pdf` emits the pages of the working list in list order
(here: whenever every reference is still valid in its source). -/
theorem save_pdf_end_to_end :
    (save_pdf_job c1_final c1_counts true).1 =
      [(src1, 1, 0), (src1, 2, 0), (src2, 0, 0), (src2, 1, 0)] ∧
    (∀ (cards : List PageCard) (counts : String → Nat),
      (∀ c ∈ cards, c.orig_index < counts c.source_path) →
      (save_pdf_job cards counts true).1 =
        cards.map (fun c => (c.source_path, c.orig_index, c.rotation % 360))) := by
  constructor
  · decide
  · intro cards counts h
    unfold save_pdf_job
    simp only [if_true, ite_true]
    rw [saveLoop_pages, filterMap_saveStep_all_valid counts cards h]

/-- Witness for C1 at the concrete end-to-end scenario. -/
theorem save_pdf_end_to_end_witness :
    (save_pdf_job c1_final c1_counts true).1 =
      c1_final.map (fun c => (c.source_path, c.orig_index, c.rotation % 360)) :=
  save_pdf_end_to_end.2 c1_final c1_counts (by decide)

/-- Claim C2: the drag reorder step is a stable move: at the current index it
is a no-op returning the very same list, and otherwise it removes the dragged
element and reinserts it at the target index, preserving the length, placing
the dragged element at the target position, and preserving the relative order
of all other elements (the result minus the moved element equals the original
minus it). -/
theorem on_drag_motion_stable_move :
    (∀ (l : List PageCard) (i : Nat), moveTo l i i = l) ∧
    (∀ (l : List PageCard) (c t : Nat), c < l.length → t < l.length →
      (moveTo l c t).length = l.length ∧
      (moveTo l c t).get? t = l.get? c ∧
      (moveTo l c t).eraseIdx t = l.eraseIdx c) :=
  ⟨moveTo_self, fun l c t hc ht =>
    ⟨moveTo_length l c t hc ht, moveTo_get?_target l c t hc ht,
      moveTo_eraseIdx l c t hc ht⟩⟩

/-- Witness for C2: moving the head of a 3-card list to index 2. -/
theorem on_drag_motion_stable_move_witness :
    (moveTo (render_worker_pages src1 3) 0 2).length =
      (render_worker_pages src1 3).length ∧
    (moveTo (render_worker_pages src1 3) 0 2).get? 2 =
      (render_worker_pages src1 3).get? 0 ∧
    (moveTo (render_worker_pages src1 3) 0 2).eraseIdx 2 =
      (render_worker_pages src1 3).eraseIdx 0 :=
  on_drag_motion_stable_move.2 (render_worker_pages src1 3) 0 2 (by decide) (by decide)

/-- Claim C3 counterexample: with `total_pages = 0` the parse of `"1"`
succeeds and returns the pair `(1, 1)`, whose end exceeds `total_pages` —
the claimed postcondition `end ≤ totalPages` fails for `totalPages = 0`. -/
theorem parse_ranges_zero_total_counterexample :
    parse_ranges "1" 0 = .ok [(1, 1)] ∧ ¬ ((1 : Int) ≤ ((0 : Nat) : Int)) := by
  decide

/-- Claim C3 (amended: for `total_pages ≥ 1`): every pair returned by a
successful parse satisfies `1 ≤ start ≤ end ≤ total_pages`, and the concrete
examples hold, including the default-endpoint forms `"-B"` and `"A-"`. -/
theorem parse_ranges_postcondition :
    (∀ (text : String) (total : Nat) (rs : List (Int × Int)), 1 ≤ total →
      parse_ranges text total = .ok rs →
      ∀ r ∈ rs, 1 ≤ r.1 ∧ r.1 ≤ r.2 ∧ r.2 ≤ (total : Int)) ∧
    parse_ranges "1-3,5" 10 = .ok [(1, 3), (5, 5)] ∧
    parse_ranges "1-100" 10 = .ok [(1, 10)] ∧
    parse_ranges "" 10 = .ok [] ∧
    parse_ranges "-3" 10 = .ok [(1, 3)] ∧
    parse_ranges "5-" 10 = .ok [(5, 10)] := by
  refine ⟨?_, by decide, by decide, by decide, by decide, by decide⟩
  intro text total rs htot hok
  unfold parse_ranges at hok
  split at hok
  · injection hok with h2
    subst h2
    intro r hr
    exact absurd hr (List.not_mem_nil r)
  · exact parseParts_ok_bounds total htot _ rs hok

/-- Witness for C3 at `parse("2-4", 5)`. -/
theorem parse_ranges_postcondition_witness :
    1 ≤ 5 ∧ (1 ≤ (2 : Int) ∧ (2 : Int) ≤ 4 ∧ (4 : Int) ≤ ((5 : Nat) : Int)) :=
  ⟨by decide,
    parse_ranges_postcondition.1 "2-4" 5 [(2, 4)] (by decide) (by decide) (2, 4)
      (by decide)⟩

/-- Claim C4: `parse_ranges` raises exactly when some comma token is a bare
`-` with nothing on either side, or has non-numeric characters where a page
number is expected, or has start > end after clamping both endpoints; in
particular `parse("-", 10)` and `parse("5-2", 10)` raise. -/
theorem parse_ranges_error_iff :
    (∀ (text : String) (total : Nat),
      isErr (parse_ranges text total) =
        (range_tokens text).any (specTokenInvalid total)) ∧
    isErr (parse_ranges "-" 10) = true ∧ isErr (parse_ranges "5-2" 10) = true := by
  refine ⟨?_, by decide, by decide⟩
  intro text total
  unfold parse_ranges
  split
  · next h =>
      have htok : range_tokens text = [] := by
        unfold range_tokens
        rw [if_pos h]
      rw [htok]
      rfl
  · exact parseParts_isErr total _

/-- Claim C5 counterexample: four clockwise rotations leave the stored
`rotation` field at 360, not at its value reduced mod 360 — the rotation is
accumulated unreduced, so "stored mod 360" is false of the code. -/
theorem rotate_cw_unreduced_counterexample :
    (rotate_cw (rotate_cw (rotate_cw (rotate_cw card0)))).rotation = 360 ∧
    (rotate_cw (rotate_cw (rotate_cw (rotate_cw card0)))).rotation ≠
      (rotate_cw (rotate_cw (rotate_cw (rotate_cw card0)))).rotation % 360 := by
  decide

/-- Claim C5 (amended): `rotate_cw` adds 90 to the stored rotation without
reducing it; four applications return the rotation to its original class mod
360; and the rotation applied to the output page at save time is the
accumulated value reduced mod 360. -/
theorem rotate_cw_accumulates :
    (∀ c : PageCard, (rotate_cw c).rotation = c.rotation + 90) ∧
    (∀ c : PageCard,
      (rotate_cw (rotate_cw (rotate_cw (rotate_cw c)))).rotation % 360 =
        c.rotation % 360) ∧
    (∀ (card : PageCard) (counts : String → Nat),
      card.orig_index < counts card.source_path →
      (save_pdf_job [card] counts true).1 =
        [(card.source_path, card.orig_index, card.rotation % 360)]) := by
  refine ⟨fun c => rfl, fun c => ?_, fun card counts h => ?_⟩
  · show (c.rotation + 90 + 90 + 90 + 90) % 360 = c.rotation % 360
    omega
  · unfold save_pdf_job
    simp only [if_true, ite_true]
    rw [saveLoop_pages]
    simp [List.filterMap_cons, saveStep, h]

/-- Witness for C5 at a concrete card with a valid source index. -/
theorem rotate_cw_accumulates_witness :
    (save_pdf_job [card0] c1_counts true).1 =
      [(card0.source_path, card0.orig_index, card0.rotation % 360)] :=
  rotate_cw_accumulates.2.2 card0 c1_counts (by decide)

/-- Claim C6: for any working list and index `i` below its length, the grid
reflow places the `i`-th card at row `i / 5` and column `i % 5`, and
reconstructing `row * 5 + col` gives back `i`. -/
theorem reflow_grid_round_trip :
    ∀ (cards : List PageCard) (i : Nat) (h : i < cards.length),
      (reflow_grid cards).get? i =
        some (cards.get ⟨i, h⟩, i / grid_cols, i % grid_cols) ∧
      (i / grid_cols) * grid_cols + i % grid_cols = i := by
  intro cards i h
  constructor
  · rw [reflow_grid_get?, List.get?_eq_get h]
    rfl
  · rw [Nat.mul_comm]
    exact Nat.div_add_mod i grid_cols

/-- Witness for C6 at index 7 of a 9-card list. -/
theorem reflow_grid_round_trip_witness :
    (reflow_grid (render_worker_pages src1 9)).get? 7 =
      some ((render_worker_pages src1 9).get ⟨7, by decide⟩, 7 / grid_cols,
        7 % grid_cols) ∧
    (7 / grid_cols) * grid_cols + 7 % grid_cols = 7 :=
  reflow_grid_round_trip (render_worker_pages src1 9) 7 (by decide)

/-- Claim C7: on an empty collection the drag-motion handler short-circuits,
returning the collection unchanged without reading any card's geometry; on a
non-empty collection of `n` cards the computed target index lies in
`[0, n-1]` for every pointer position, including negative coordinates, and
any reported first-card geometry. -/
theorem on_drag_motion_target_safety :
    (∀ (dragItem : PageCard) (x y w0 h0 : Int),
      on_drag_motion [] dragItem x y w0 h0 = []) ∧
    (∀ (x y w0 h0 : Int) (n : Nat), 1 ≤ n →
      0 ≤ onDragMotionIdx x y w0 h0 n ∧ onDragMotionIdx x y w0 h0 n < (n : Int)) :=
  ⟨fun _ _ _ _ _ => rfl, onDragMotionIdx_bounds⟩

/-- Witness for C7 at a negative pointer position over 7 cards. -/
theorem on_drag_motion_target_safety_witness :
    on_drag_motion [] card0 (-37) (-12) 0 0 = [] ∧
    (0 ≤ onDragMotionIdx (-37) (-12) 0 0 7 ∧
      onDragMotionIdx (-37) (-12) 0 0 7 < ((7 : Nat) : Int)) :=
  ⟨on_drag_motion_target_safety.1 card0 (-37) (-12) 0 0,
    on_drag_motion_target_safety.2 (-37) (-12) 0 0 7 (by decide)⟩

/-- Claim C8: an exception escaping a job body is caught at the thread
boundary and turned into a single `error` event instead of propagating; a job
that raises after emitting neither `error` nor `done` ends with exactly one
`error` event and no `done` event; and the concrete failing save (unwritable
destination) emits exactly one `error` and no `done`. -/
theorem worker_error_channel :
    (∀ (t : JobTrace) (msg : String), t.uncaught = some msg →
      workerRun t = t.events ++ [PEvent.error msg]) ∧
    (∀ (t : JobTrace) (msg : String), t.uncaught = some msg →
      t.events.countP isErrEvent = 0 → t.events.countP isDoneEvent = 0 →
      (workerRun t).countP isErrEvent = 1 ∧ (workerRun t).countP isDoneEvent = 0) ∧
    (∀ (cards : List PageCard) (counts : String → Nat),
      (workerRun (save_pdf_trace cards counts false)).countP isErrEvent = 1 ∧
      (workerRun (save_pdf_trace cards counts false)).countP isDoneEvent = 0) := by
  refine ⟨?_, ?_, ?_⟩
  · intro t msg h
    unfold workerRun
    rw [h]
  · intro t msg h he hd
    unfold workerRun
    rw [h]
    simp [List.countP_append, List.countP_cons, he, hd, isErrEvent, isDoneEvent]
  · intro cards counts
    have hclean := saveLoop_events_clean counts cards.length 0 cards
    unfold workerRun save_pdf_trace save_pdf_job
    simp [List.countP_append, List.countP_cons, hclean.1, hclean.2, isErrEvent,
      isDoneEvent]

/-- Witness for C8 at a concrete raising trace and a concrete failing save. -/
theorem worker_error_channel_witness :
    workerRun boom_trace = [PEvent.progress 50, PEvent.error "boom"] ∧
    ((workerRun boom_trace).countP isErrEvent = 1 ∧
      (workerRun boom_trace).countP isDoneEvent = 0) ∧
    ((workerRun (save_pdf_trace [card0] c1_counts false)).countP isErrEvent = 1 ∧
      (workerRun (save_pdf_trace [card0] c1_counts false)).countP isDoneEvent = 0) :=
  ⟨worker_error_channel.1 boom_trace "boom" rfl,
    worker_error_channel.2.1 boom_trace "boom" rfl (by decide) (by decide),
    worker_error_channel.2.2 [card0] c1_counts⟩

/-- Claim C9 counterexample: for the watermark action, the invalid range text
`"5-2"` does not prevent the background job from being spawned — the worker
starts and only then surfaces the range error as an `error` event on the
progress channel, contradicting "no background job is spawned when the range
text is invalid". -/
theorem range_validation_async_counterexample :
    isErr (parse_ranges "5-2" 10) = true ∧
    (apply_to_single "5-2" 10).worker_spawned = true ∧
    (apply_to_single "5-2" 10).events.countP isErrEvent = 1 ∧
    (apply_to_single "5-2" 10).events.countP isDoneEvent = 0 := by
  decide

/-- Claim C9 (amended): `SplitPage.extract` validates the range text
synchronously — an invalid token yields an `Invalid Range` dialog and no
worker is spawned — while the watermark actions spawn the worker
unconditionally and `parse_ranges` runs inside the job, which then emits
exactly one `error` event, no `done` event, and writes no pages. -/
theorem range_validation_amended :
    (∀ (text : String) (total : Nat),
      (extract_tokens text).any
        (fun tok => isErr (parse_ranges (String.mk tok) total)) = true →
      spawns_worker (split_extract text total) = false ∧
      ∃ msg, split_extract text total = .sync_invalid_range msg) ∧
    (∀ (text : String) (total : Nat), isErr (parse_ranges text total) = true →
      (apply_to_single text total).worker_spawned = true ∧
      (apply_to_single text total).events.countP isErrEvent = 1 ∧
      (apply_to_single text total).events.countP isDoneEvent = 0 ∧
      (apply_to_single text total).pages_written = 0) ∧
    (∀ (text : String) (total files : Nat), 1 ≤ files →
      isErr (parse_ranges text total) = true →
      (apply_to_folder text total files).worker_spawned = true ∧
      (apply_to_folder text total files).events.countP isErrEvent = 1 ∧
      (apply_to_folder text total files).events.countP isDoneEvent = 0) := by
  refine ⟨?_, ?_, ?_⟩
  · intro text total h
    by_cases hE : pyStrip text.toList = []
    · exfalso
      have htok : extract_tokens text = [] := by
        unfold extract_tokens
        rw [hE]
        rfl
      rw [htok] at h
      simp at h
    · have herr : isErr (extract_dests total (extract_tokens text)) = true := by
        rw [extract_dests_isErr]
        exact h
      cases h2 : extract_dests total (extract_tokens text) with
      | error msg =>
          have hout : split_extract text total = .sync_invalid_range msg := by
            unfold split_extract
            rw [if_neg hE, h2]
          exact ⟨by rw [hout]; rfl, msg, hout⟩
      | ok dests =>
          rw [h2] at herr
          simp [isErr] at herr
  · intro text total h
    have hne : pyStrip text.toList ≠ [] := by
      intro hE
      unfold parse_ranges at h
      rw [if_pos hE] at h
      simp [isErr] at h
    cases h2 : parse_ranges text total with
    | error msg =>
        unfold apply_to_single
        rw [if_pos hne, h2]
        simp [List.countP_cons, isErrEvent, isDoneEvent]
    | ok rs =>
        rw [h2] at h
        simp [isErr] at h
  · intro text total files hf h
    have hf0 : files ≠ 0 := by omega
    have hne : pyStrip text.toList ≠ [] := by
      intro hE
      unfold parse_ranges at h
      rw [if_pos hE] at h
      simp [isErr] at h
    cases h2 : parse_ranges text total with
    | error msg =>
        unfold apply_to_folder
        rw [if_neg hf0, if_pos hne, h2]
        simp [List.countP_cons, isErrEvent, isDoneEvent]
    | ok rs =>
        rw [h2] at h
        simp [isErr] at h

/-- Witness for C9 at the invalid range text `"5-2"`. -/
theorem range_validation_amended_witness :
    (spawns_worker (split_extract "5-2" 10) = false ∧
      ∃ msg, split_extract "5-2" 10 = .sync_invalid_range msg) ∧
    ((apply_to_single "5-2" 10).worker_spawned = true ∧
      (apply_to_single "5-2" 10).events.countP isErrEvent = 1 ∧
      (apply_to_single "5-2" 10).events.countP isDoneEvent = 0 ∧
      (apply_to_single "5-2" 10).pages_written = 0) ∧
    ((apply_to_folder "5-2" 10 3).worker_spawned = true ∧
      (apply_to_folder "5-2" 10 3).events.countP isErrEvent = 1 ∧
      (apply_to_folder "5-2" 10 3).events.countP isDoneEvent = 0) :=
  ⟨range_validation_amended.1 "5-2" 10 (by decide),
    range_validation_amended.2.1 "5-2" 10 (by decide),
    range_validation_amended.2.2 "5-2" 10 3 (by decide) (by decide)⟩

/-- Claim C10: during the organizer save, every page reference whose original
index is not below the current page count of its source (as re-read at save
time) is silently dropped from the output, the save still completes with
exactly one `done` event and no `error` event, and the written file can hold
fewer pages than the working list. -/
theorem save_pdf_skips_stale_pages :
    (∀ (cards : List PageCard) (counts : String → Nat),
      (save_pdf_job cards counts true).1 =
        (cards.filter (fun c => c.orig_index < counts c.source_path)).map
          (fun c => (c.source_path, c.orig_index, c.rotation % 360)) ∧
      (save_pdf_job cards counts true).2.countP isDoneEvent = 1 ∧
      (save_pdf_job cards counts true).2.countP isErrEvent = 0) ∧
    (save_pdf_job stale_example c1_counts true).1.length < stale_example.length := by
  constructor
  · intro cards counts
    have hclean := saveLoop_events_clean counts cards.length 0 cards
    refine ⟨?_, ?_, ?_⟩
    · unfold save_pdf_job
      simp only [if_true, ite_true]
      rw [saveLoop_pages, filterMap_saveStep_eq_filter_map]
    · unfold save_pdf_job
      simp [List.countP_append, List.countP_cons, hclean.2, isDoneEvent]
    · unfold save_pdf_job
      simp [List.countP_append, List.countP_cons, hclean.1, isErrEvent]
  · decide

end PdfToolkit
